import Mathlib

/-!
Verification of the VS Code test-coverage model (`testCoverage.ts`) and its
display helpers (`testCoverageBars.ts`).

Counts are natural numbers; percentages are modelled exactly as rationals.
Promise-based caching is modelled as an explicit state machine with a
start step (synchronous part up to the first `await`) and a resume step
(continuation once the awaited outcome settles), with pending promises
identified by attempt numbers and provider results given by oracles
indexed by attempt number.
-/

/-- Counts for a single coverage category (`ICoveredCount` in `testTypes`). -/
structure ICoveredCount where
  covered : Nat
  total : Nat
deriving DecidableEq, Repr

/-- Modelled from the spec: `emptyCounts` of `testTypes` is not under `src/`;
the spec says aggregation starts "from zero counts". -/
def emptyCounts : ICoveredCount := { covered := 0, total := 0 }

/-- Modelled from the spec: `sumCounts` of `testTypes` is not under `src/`;
the spec says "Summing two counts is componentwise addition". The source
mutates its first argument in place; the model returns the sum. -/
def sumCounts (a b : ICoveredCount) : ICoveredCount :=
  { covered := a.covered + b.covered, total := a.total + b.total }

/-- Modelled from the spec: the resource identifier (`URI` of `vs/base/common/uri`,
not under `src/`) with the three components used by the coverage model. -/
structure URI where
  scheme : String
  authority : String
  path : String
deriving DecidableEq, Repr

/-- Model of JavaScript `"str".split('/')` on character lists:
splitting the empty string yields one empty segment. -/
def splitCharsOnSlash : List Char → List (List Char)
  | [] => [[]]
  | c :: rest =>
    let r := splitCharsOnSlash rest
    if c = '/' then [] :: r
    else
      match r with
      | [] => [[c]]
      | w :: ws => (c :: w) :: ws

/-- Model of JavaScript `s.split('/')`. -/
def splitOnSlash (s : String) : List String :=
  (splitCharsOnSlash s.data).map (fun cs => String.mk cs)

/-- Per-line/per-branch detail entries are opaque to the code under
verification; they are only stored and returned. -/
abbrev CoverageDetail := Nat

/-- Raw file coverage record (`IFileCoverage` in `testTypes`):
`statement` always present, `branch`/`function` optional, plus optional
inline details. -/
structure IFileCoverage where
  uri : URI
  statement : ICoveredCount
  branch : Option ICoveredCount
  function : Option ICoveredCount
  details : Option (List CoverageDetail)
deriving DecidableEq, Repr

/-- Fields of `AbstractFileCoverage` (`testCoverage.ts`, lines 291-295). -/
structure AbstractFileCoverage where
  uri : URI
  statement : ICoveredCount
  branch : Option ICoveredCount
  function : Option ICoveredCount
deriving DecidableEq, Repr

/-- Constructor of `AbstractFileCoverage` (`testCoverage.ts`, lines 318-323),
embedded verbatim: the source assigns `coverage.branch` to `this.function`. -/
def AbstractFileCoverage.ofCoverage (coverage : IFileCoverage) : AbstractFileCoverage :=
  { uri := coverage.uri
    statement := coverage.statement
    branch := coverage.branch
    function := coverage.branch }

/-- Getter `AbstractFileCoverage.tpc` (`testCoverage.ts`, lines 301-316):
running numerator/denominator over the present categories, with the
zero-denominator case reported as 1. -/
def AbstractFileCoverage.tpc (c : AbstractFileCoverage) : ℚ :=
  let n0 : Nat := c.statement.covered
  let d0 : Nat := c.statement.total
  let n1 : Nat := match c.branch with | some b => n0 + b.covered | none => n0
  let d1 : Nat := match c.branch with | some b => d0 + b.total | none => d0
  let n2 : Nat := match c.function with | some f => n1 + f.covered | none => n1
  let d2 : Nat := match c.function with | some f => d1 + f.total | none => d1
  if d2 = 0 then 1 else (n2 : ℚ) / (d2 : ℚ)

/-- Helper `percent` (`testCoverageBars.ts`, line 137). -/
def percent (cc : ICoveredCount) : ℚ :=
  if cc.total = 0 then 1 else (cc.covered : ℚ) / (cc.total : ℚ)

/-- Configuration enum `TestingDisplayedCoveragePercent`. -/
inductive TestingDisplayedCoveragePercent where
  | Statement
  | Minimum
  | TotalCoverage
deriving DecidableEq, Repr

/-- Metric selector `calculateDisplayedStat` (`testCoverageBars.ts`, lines 151-167). -/
def calculateDisplayedStat (coverage : AbstractFileCoverage)
    (method : TestingDisplayedCoveragePercent) : ℚ :=
  match method with
  | .Statement => percent coverage.statement
  | .Minimum =>
    let value := percent coverage.statement
    let value := match coverage.branch with | some b => min value (percent b) | none => value
    let value := match coverage.function with | some f => min value (percent f) | none => value
    value
  | .TotalCoverage => coverage.tpc

/-- Rendering of an integer number of hundredths as a 2-decimal string,
the output format of JavaScript `x.toFixed(2)` for the magnitudes used here. -/
def formatCents (n : ℤ) : String :=
  let ip := n / 100
  let fp := (n % 100).toNat
  let fpStr := if fp < 10 then "0" ++ Nat.repr fp else Nat.repr fp
  Int.repr ip ++ "." ++ fpStr

/-- Model of JavaScript `x.toFixed(2)`: round to the nearest hundredth
(half up) and print with exactly two decimal digits. -/
def toFixed2 (x : ℚ) : String :=
  formatCents ⌊x * 100 + 1 / 2⌋

/-- Constant `epsilon = 10e-8` (`testCoverageBars.ts`, line 139). -/
def epsilon : ℚ := 10 / 10 ^ 8

/-- Formatter `displayPercent` (`testCoverageBars.ts`, lines 169-178):
format `value * 100` via `toFixed(2)`, substituting the hard-coded string
`"99.99%"` when `value < 1 - epsilon` and the fixed display equals `"100"`. -/
def displayPercent (value : ℚ) : String :=
  let display := toFixed2 (value * 100)
  if value < 1 - epsilon ∧ display = "100" then "99.99%"
  else display ++ "%"

/-- Leaf class `FileCoverage` (`testCoverage.ts`, lines 332-338): the
`AbstractFileCoverage` fields built by the super constructor, the `index`
constructor argument, and the initial value of the `_details` cache
(`this._details = coverage.details`). -/
structure FileCoverage where
  base : AbstractFileCoverage
  index : Nat
  detailsInit : Option (List CoverageDetail)
deriving DecidableEq, Repr

/-- Construction `new FileCoverage(coverage, index, accessor)`. -/
def FileCoverage.make (coverage : IFileCoverage) (index : Nat) : FileCoverage :=
  { base := AbstractFileCoverage.ofCoverage coverage
    index := index
    detailsInit := coverage.details }

/-- Union of values stored in the tree: `FileCoverage | ComputedFileCoverage`
(`testCoverage.ts`, line 205). -/
inductive CoverageNode where
  | leaf : FileCoverage → CoverageNode
  | computed : AbstractFileCoverage → CoverageNode
deriving DecidableEq, Repr

/-- View of a stored value through its `AbstractFileCoverage` fields. -/
def CoverageNode.base : CoverageNode → AbstractFileCoverage
  | .leaf f => f.base
  | .computed a => a

/-- Provider-assigned index of a stored value, when it is a Leaf. -/
def CoverageNode.leafIndex : CoverageNode → Option Nat
  | .leaf f => some f.index
  | .computed _ => none

/-- Modelled from the spec: a node of `WellDefinedPrefixTree`
(`vs/base/common/prefixTree`, not under `src/`): an optional value plus
children keyed by path segment. -/
inductive PrefixTreeNode (V : Type) where
  | mk : Option V → List (String × PrefixTreeNode V) → PrefixTreeNode V

/-- Value held at a tree position. -/
def PrefixTreeNode.value {V : Type} : PrefixTreeNode V → Option V
  | .mk v _ => v

/-- Children of a tree position. -/
def PrefixTreeNode.children {V : Type} : PrefixTreeNode V → List (String × PrefixTreeNode V)
  | .mk _ cs => cs

/-- Replace the child keyed `s`, or append it when absent. -/
def setChild {V : Type} :
    List (String × PrefixTreeNode V) → String → PrefixTreeNode V →
    List (String × PrefixTreeNode V)
  | [], s, c => [(s, c)]
  | (k, old) :: cs, s, c =>
    if k = s then (k, c) :: cs else (k, old) :: setChild cs s c

/-- Modelled from the spec: `insert(pathSegments, leaf)` "adds a Leaf at the
given key", creating intermediate value-less positions as needed. -/
def PrefixTreeNode.insert {V : Type} : List String → PrefixTreeNode V → V → PrefixTreeNode V
  | [], .mk _ cs, v => .mk (some v) cs
  | s :: rest, .mk val cs, v =>
    let child := ((cs.find? (fun p => p.1 == s)).map Prod.snd).getD (.mk none [])
    .mk val (setChild cs s (PrefixTreeNode.insert rest child v))

/-- Modelled from the spec: "lookup by path returns the node at that exact key
or undefined". -/
def PrefixTreeNode.find {V : Type} : List String → PrefixTreeNode V → Option V
  | [], t => t.value
  | s :: rest, .mk _ cs =>
    match (cs.find? (fun p => p.1 == s)).map Prod.snd with
    | some child => PrefixTreeNode.find rest child
    | none => none

/-- Modelled from the spec: the prefix tree is its root's children; keys used
by the coverage model are nonempty (they start with the scheme segment). -/
structure WellDefinedPrefixTree (V : Type) where
  children : List (String × PrefixTreeNode V)

/-- Tree-level insertion. -/
def WellDefinedPrefixTree.insert {V : Type} (t : WellDefinedPrefixTree V)
    (key : List String) (v : V) : WellDefinedPrefixTree V :=
  ⟨(PrefixTreeNode.insert key (.mk none t.children) v).children⟩

/-- Tree-level lookup by exact key. -/
def WellDefinedPrefixTree.find {V : Type} (t : WellDefinedPrefixTree V)
    (key : List String) : Option V :=
  PrefixTreeNode.find key (.mk none t.children)

/-- Decomposition `treePathForUri` (`testCoverage.ts`, lines 237-241):
`[scheme, authority, ...path-segments-split-on-'/']`. -/
def treePathForUri (u : URI) : List String :=
  u.scheme :: u.authority :: splitOnSlash u.path

/-- Reconstruction `treePathToUri` (`testCoverage.ts`, lines 243-245). -/
def treePathToUri (path : List String) : URI :=
  { scheme := path.headD ""
    authority := (path.drop 1).headD ""
    path := String.intercalate "/" (path.drop 2) }

/-- Step 1 of `TestCoverage.createFileCoverage` (`testCoverage.ts`,
lines 251-255): insert every record as a Leaf keyed by `treePathForUri`;
the source passes the literal `0`, not the loop index `i`, to the
`FileCoverage` constructor. -/
def insertLeaves (files : List IFileCoverage) : WellDefinedPrefixTree CoverageNode :=
  files.foldl
    (fun tree file =>
      tree.insert (treePathForUri file.uri) (.leaf (FileCoverage.make file 0)))
    ⟨[]⟩

/-- Accumulation of one child's counts into the synthesized record
(`testCoverage.ts`, lines 274-276): `sumCounts(fileCoverage.statement, v.statement)`,
and `sumCounts(fileCoverage.branch ??= emptyCounts(), v.branch)` when the child
has a branch count, likewise for `function`. -/
def addChildCounts (acc : IFileCoverage) (v : AbstractFileCoverage) : IFileCoverage :=
  { acc with
    statement := sumCounts acc.statement v.statement
    branch :=
      match v.branch with
      | some b => some (sumCounts (acc.branch.getD emptyCounts) b)
      | none => acc.branch
    function :=
      match v.function with
      | some f => some (sumCounts (acc.function.getD emptyCounts) f)
      | none => acc.function }

mutual
/-- Depth-first pass `calculateComputed` (`testCoverage.ts`, lines 257-281):
a position that already holds a value is returned unchanged; otherwise the
children are computed recursively, their counts accumulated into a fresh
record, and the resulting `ComputedFileCoverage` is stored as the position's
value. -/
def calculateComputed : List String → PrefixTreeNode CoverageNode →
    AbstractFileCoverage × PrefixTreeNode CoverageNode
  | _, .mk (some v) cs => (v.base, .mk (some v) cs)
  | path, .mk none cs =>
    let init : IFileCoverage :=
      { uri := treePathToUri path
        statement := emptyCounts
        branch := none
        function := none
        details := none }
    let (rec, cs2) := calculateComputedChildren path init cs
    let a := AbstractFileCoverage.ofCoverage rec
    (a, .mk (some (CoverageNode.computed a)) cs2)

/-- Child loop of `calculateComputed` (`testCoverage.ts`, lines 268-278):
push the prefix, recurse, pop, and accumulate the child's counts. -/
def calculateComputedChildren : List String → IFileCoverage →
    List (String × PrefixTreeNode CoverageNode) →
    IFileCoverage × List (String × PrefixTreeNode CoverageNode)
  | _, acc, [] => (acc, [])
  | path, acc, (k, child) :: rest =>
    let (v, child2) := calculateComputed (path ++ [k]) child
    let (accFinal, rest2) := calculateComputedChildren path (addChildCounts acc v) rest
    (accFinal, (k, child2) :: rest2)
end

/-- Step 2 loop of `createFileCoverage` (`testCoverage.ts`, lines 283-285):
run `calculateComputed` with the starting path `[]` on every top-level node. -/
def computeTree (t : WellDefinedPrefixTree CoverageNode) : WellDefinedPrefixTree CoverageNode :=
  ⟨t.children.map (fun p => (p.1, (calculateComputed [] p.2).2))⟩

/-- Full construction attempt `createFileCoverage` (`testCoverage.ts`,
lines 247-288): the provider outcome of attempt `a` is given by the oracle
`provide`; on success the tree is built and aggregated. -/
def createFileCoverage {E : Type} (provide : Nat → Except E (List IFileCoverage))
    (a : Nat) : Except E (WellDefinedPrefixTree CoverageNode) :=
  (provide a).map (fun files => computeTree (insertLeaves files))

/-- Cache state of a `TestCoverage` session (`testCoverage.ts`, line 211):
`fileCoverage` holds the attempt number identifying the cached construction
promise (`none` = `undefined`), and `providerCalls` counts the construction
attempts started (= provider invocations). -/
structure TestCoverageState where
  fileCoverage : Option Nat
  providerCalls : Nat
deriving DecidableEq, Repr

/-- Synchronous prefix of `TestCoverage.getAllFiles` (`testCoverage.ts`,
line 219): `this.fileCoverage ??= this.createFileCoverage(token)` — reuse the
cached promise or start and cache a fresh attempt. Returns the attempt the
caller awaits. -/
def startGetAllFiles (s : TestCoverageState) : Nat × TestCoverageState :=
  match s.fileCoverage with
  | some a => (a, s)
  | none =>
    (s.providerCalls,
     { fileCoverage := some s.providerCalls, providerCalls := s.providerCalls + 1 })

/-- Continuation of `getAllFiles` (`testCoverage.ts`, lines 221-226) once the
awaited attempt `a` settles: return the tree, or clear `this.fileCoverage`
and re-raise the error. -/
def resumeGetAllFiles {E : Type} (provide : Nat → Except E (List IFileCoverage))
    (a : Nat) (s : TestCoverageState) :
    Except E (WellDefinedPrefixTree CoverageNode) × TestCoverageState :=
  match createFileCoverage provide a with
  | .ok t => (.ok t, s)
  | .error e => (.error e, { s with fileCoverage := none })

/-- Lookup step of `TestCoverage.getUri` (`testCoverage.ts`, lines 232-235)
on the resolved tree: the source looks up `uri.path.split('/')`, without the
scheme and authority segments used by `treePathForUri` at insertion. -/
def getUri (files : WellDefinedPrefixTree CoverageNode) (uri : URI) : Option CoverageNode :=
  files.find (splitOnSlash uri.path)

/-- Value of the `_details` field of a leaf (`testCoverage.ts`, line 333):
`undefined`, a plain detail array, or a cached resolver promise identified by
attempt number. -/
inductive DetailsCache where
  | empty
  | inline (ds : List CoverageDetail)
  | pending (a : Nat)
deriving DecidableEq, Repr

/-- Mutable state of one `FileCoverage` leaf: its `_details` cache, the
resolver-invocation count, and the immutable `index` field. -/
structure LeafState where
  cache : DetailsCache
  resolverCalls : Nat
  index : Nat
deriving DecidableEq, Repr

/-- Initial `details` state of a constructed leaf (`testCoverage.ts`,
lines 335-338): `this._details = coverage.details`. -/
def FileCoverage.initState (f : FileCoverage) : LeafState :=
  { cache :=
      match f.detailsInit with
      | some ds => .inline ds
      | none => .empty
    resolverCalls := 0
    index := f.index }

/-- What one caller of `details` awaits. -/
inductive DetailsAwait where
  | value (ds : List CoverageDetail)
  | attempt (a : Nat) (fileIndex : Nat)
deriving DecidableEq, Repr

/-- Synchronous prefix of `FileCoverage.details` (`testCoverage.ts`, line 344):
`this._details ??= this.accessor.resolveFileCoverage(this.index, token)`.
A fresh resolver invocation passes the leaf's `index` field as `fileIndex`. -/
def startDetails (l : LeafState) : DetailsAwait × LeafState :=
  match l.cache with
  | .inline ds => (.value ds, l)
  | .pending a => (.attempt a l.index, l)
  | .empty =>
    (.attempt l.resolverCalls l.index,
     { l with cache := .pending l.resolverCalls, resolverCalls := l.resolverCalls + 1 })

/-- Continuation of `details` (`testCoverage.ts`, lines 346-351): awaiting a
plain array returns it; awaiting resolver attempt `a` returns that attempt's
outcome, clearing `this._details` and re-raising on failure. -/
def resumeDetails {E : Type} (resolve : Nat → Except E (List CoverageDetail))
    (w : DetailsAwait) (l : LeafState) : Except E (List CoverageDetail) × LeafState :=
  match w with
  | .value ds => (.ok ds, l)
  | .attempt a _ =>
    match resolve a with
    | .ok ds => (.ok ds, l)
    | .error e => (.error e, { l with cache := .empty })

/-- One sequential (non-interleaved) call to `details`. -/
def detailsCall {E : Type} (resolve : Nat → Except E (List CoverageDetail))
    (l : LeafState) : Except E (List CoverageDetail) × LeafState :=
  let (w, l2) := startDetails l
  resumeDetails resolve w l2

/-- Written from the spec (for comparison with `AbstractFileCoverage.tpc`):
sum of `covered` across the present categories. -/
def presentCovered (c : AbstractFileCoverage) : Nat :=
  c.statement.covered
    + (match c.branch with | some b => b.covered | none => 0)
    + (match c.function with | some f => f.covered | none => 0)

/-- Written from the spec (for comparison with `AbstractFileCoverage.tpc`):
sum of `total` across the present categories. -/
def presentTotal (c : AbstractFileCoverage) : Nat :=
  c.statement.total
    + (match c.branch with | some b => b.total | none => 0)
    + (match c.function with | some f => f.total | none => 0)

/-- Written from the spec (for comparison with `AbstractFileCoverage.tpc`):
"numerator = sum of covered across present categories; denominator = sum of
total across present categories. If denominator is zero, tpc = 1." -/
def tpcFromSpec (c : AbstractFileCoverage) : ℚ :=
  if presentTotal c = 0 then 1
  else (presentCovered c : ℚ) / (presentTotal c : ℚ)

/-- Written from the spec (for comparison with `calculateDisplayedStat`):
"the minimum of statement percent and, if present, branch and function
percents". -/
def minimumFromSpec (c : AbstractFileCoverage) : ℚ :=
  ((c.branch.toList.map percent) ++ (c.function.toList.map percent)).foldr
    min (percent c.statement)

/-- C1: the claim fails on the code. Insertion keys a Leaf by
`[scheme, authority, ...path-segments]` (`treePathForUri`), but `getUri` looks
the tree up under `uri.path.split('/')` alone (`testCoverage.ts`, line 234).
For `file:///a.ts` the Leaf is present under its insertion key, yet `getUri`
on the very same URI returns `undefined`. -/
theorem C1_getUri_uses_mismatched_key :
    (computeTree (insertLeaves
        [⟨⟨"file", "", "/a.ts"⟩, ⟨1, 2⟩, none, none, none⟩])).find
        (treePathForUri ⟨"file", "", "/a.ts"⟩)
      = some (.leaf (FileCoverage.make ⟨⟨"file", "", "/a.ts"⟩, ⟨1, 2⟩, none, none, none⟩ 0))
    ∧ getUri
        (computeTree (insertLeaves
          [⟨⟨"file", "", "/a.ts"⟩, ⟨1, 2⟩, none, none, none⟩]))
        ⟨"file", "", "/a.ts"⟩
      = none := by
  decide

/-- C2: the claim fails on the code. The `AbstractFileCoverage` constructor
assigns `coverage.branch` to `this.function` (`testCoverage.ts`, line 322):
a record carrying `function = {1,2}` and no `branch` yields a node with
`function` absent, and with `branch = {3,4}` present the node's `function`
becomes `{3,4}` instead of `{1,2}`. -/
theorem C2_constructor_misassigns_function :
    (AbstractFileCoverage.ofCoverage
        ⟨⟨"file", "", "/a.ts"⟩, ⟨0, 1⟩, none, some ⟨1, 2⟩, none⟩).function = none
    ∧ (AbstractFileCoverage.ofCoverage
        ⟨⟨"file", "", "/a.ts"⟩, ⟨0, 1⟩, some ⟨3, 4⟩, some ⟨1, 2⟩, none⟩).function
      = some ⟨3, 4⟩
    ∧ (AbstractFileCoverage.ofCoverage
        ⟨⟨"file", "", "/a.ts"⟩, ⟨0, 1⟩, some ⟨3, 4⟩, some ⟨1, 2⟩, none⟩).branch
      = some ⟨3, 4⟩ := by
  decide

/-- C3: the claim fails on the code. The insertion loop passes the literal
`0`, not the loop index `i`, to the `FileCoverage` constructor
(`testCoverage.ts`, line 254): with two files, the Leaf for the file at
position 1 stores index 0, and its `details` call delegates to the resolver
with `fileIndex = 0` — file 0's detail, not its own. -/
theorem C3_leaf_index_always_zero :
    ((insertLeaves
        [⟨⟨"file", "", "/x"⟩, ⟨1, 2⟩, none, none, none⟩,
         ⟨⟨"file", "", "/y"⟩, ⟨3, 4⟩, none, none, none⟩]).find
        ["file", "", "", "y"]).map CoverageNode.leafIndex
      = some (some 0)
    ∧ (startDetails (FileCoverage.make
        ⟨⟨"file", "", "/y"⟩, ⟨3, 4⟩, none, none, none⟩ 0).initState).1
      = .attempt 0 0 := by
  decide

/-- C6: the claim fails on the code for the `function` category. The Leaf
parts and statement/branch sums behave as claimed (the spec's `a/b/x`,
`a/b/y` example yields statement `{4,6}` at `a/b` and the same at `a`), but
every synthesized Aggregate goes through the `AbstractFileCoverage`
constructor, which assigns the record's `branch` to `function`
(`testCoverage.ts`, line 322): a descendant with a `function` count `{5,6}`
and no `branch` produces aggregates with `function` absent. -/
theorem C6_aggregation_function_category_lost :
    -- spec example: statement sums at a/b and passthrough at a
    (((computeTree (insertLeaves
        [⟨⟨"file", "", "/a/b/x"⟩, ⟨1, 2⟩, none, none, none⟩,
         ⟨⟨"file", "", "/a/b/y"⟩, ⟨3, 4⟩, none, none, none⟩])).find
        ["file", "", "", "a", "b"]).map (fun n => n.base.statement)
      = some ⟨4, 6⟩
    ∧ ((computeTree (insertLeaves
        [⟨⟨"file", "", "/a/b/x"⟩, ⟨1, 2⟩, none, none, none⟩,
         ⟨⟨"file", "", "/a/b/y"⟩, ⟨3, 4⟩, none, none, none⟩])).find
        ["file", "", "", "a"]).map (fun n => n.base.statement)
      = some ⟨4, 6⟩
    -- Leaves are returned unchanged
    ∧ (computeTree (insertLeaves
        [⟨⟨"file", "", "/a/b/x"⟩, ⟨1, 2⟩, none, none, none⟩,
         ⟨⟨"file", "", "/a/b/y"⟩, ⟨3, 4⟩, none, none, none⟩])).find
        ["file", "", "", "a", "b", "x"]
      = some (.leaf (FileCoverage.make ⟨⟨"file", "", "/a/b/x"⟩, ⟨1, 2⟩, none, none, none⟩ 0)))
    -- but a descendant `function` count does not surface in the aggregate
    ∧ ((computeTree (insertLeaves
        [⟨⟨"file", "", "/x"⟩, ⟨1, 2⟩, none, some ⟨5, 6⟩, none⟩])).find
        ["file"]).map (fun n => n.base.function)
      = some none
    ∧ (⟨⟨"file", "", "/x"⟩, ⟨1, 2⟩, none, some ⟨5, 6⟩, none⟩ : IFileCoverage).function
      = some ⟨5, 6⟩ := by
  decide

/-- C4 counterexample: at `f = 1 - 5e-8`, which lies in the claim's range
`[1 - 1e-7, 1)`, `displayPercent` returns `"100.00%"`, not `"99.99%"`: the
source's guard (`testCoverageBars.ts`, line 173) requires `value < 1 - epsilon`,
which excludes the whole range, and its string comparison tests the 2-decimal
display (here `"100.00"`) against `"100"`, which can never match. -/
theorem C4_range_shows_full_coverage :
    1 - 1 / 10 ^ 7 ≤ (1 - 5 / 10 ^ 8 : ℚ)
    ∧ (1 - 5 / 10 ^ 8 : ℚ) < 1
    ∧ displayPercent (1 - 5 / 10 ^ 8) = "100.00%"
    ∧ displayPercent (1 - 5 / 10 ^ 8) ≠ "99.99%" := by
  have hfl : ⌊(1 - 5 / 10 ^ 8 : ℚ) * 100 * 100 + 1 / 2⌋ = (10000 : ℤ) := by
    norm_num
  have hmain : displayPercent (1 - 5 / 10 ^ 8) = "100.00%" := by
    simp only [displayPercent, toFixed2, hfl]
    rw [if_neg]
    · decide
    · intro h
      exact absurd h.2 (by decide)
  refine ⟨by norm_num, by norm_num, hmain, ?_⟩
  rw [hmain]
  decide

/-- Helper: the character data of an appended string is the appended data. -/
theorem data_append_eq (s t : String) : (s ++ t).data = s.data ++ t.data := by
  cases s
  cases t
  rfl

/-- Helper: a string of the shape `a ++ "." ++ b` contains a dot. -/
theorem mem_dot_append (a b : String) : ('.' : Char) ∈ (a ++ "." ++ b).data := by
  rw [data_append_eq, data_append_eq]
  refine List.mem_append.mpr (Or.inl (List.mem_append.mpr (Or.inr ?_)))
  show ('.' : Char) ∈ ['.']
  simp

/-- Helper: `formatCents` output always contains a dot, so it never equals the
dotless string `"100"`. -/
theorem formatCents_ne_100 (n : ℤ) : formatCents n ≠ "100" := by
  intro h
  have hmem : ('.' : Char) ∈ (formatCents n).data := by
    show ('.' : Char) ∈ (Int.repr (n / 100) ++ "." ++
      (if (n % 100).toNat < 10 then "0" ++ Nat.repr (n % 100).toNat
       else Nat.repr (n % 100).toNat)).data
    exact mem_dot_append _ _
  rw [h] at hmem
  exact absurd hmem (by decide)

/-- Helper: the `"99.99%"` substitution branch of `displayPercent` is dead
code: its guard compares the 2-decimal display against `"100"`, which never
matches, so every value renders as `value * 100` fixed to 2 decimals plus
`"%"`. -/
theorem displayPercent_eq_toFixed2 (g : ℚ) :
    displayPercent g = toFixed2 (g * 100) ++ "%" := by
  simp only [displayPercent]
  exact if_neg (fun h => formatCents_ne_100 _ h.2)

/-- C4 amended: every fraction `f` with `1 - 1e-7 ≤ f ≤ 1` displays as
`"100.00%"` — the `"99.99%"` substitution cannot fire there, since the guard
requires `value < 1 - epsilon` — and in general every value renders as the
value scaled by 100 with 2 decimal digits followed by `"%"`; in particular
`displayPercent 1 = "100.00%"`. -/
theorem C4_displayPercent_near_one (f : ℚ)
    (h1 : 1 - 1 / 10 ^ 7 ≤ f) (h2 : f ≤ 1) :
    displayPercent f = "100.00%"
    ∧ ∀ g : ℚ, displayPercent g = toFixed2 (g * 100) ++ "%" := by
  have hfl : ⌊f * 100 * 100 + 1 / 2⌋ = (10000 : ℤ) := by
    rw [Int.floor_eq_iff]
    constructor
    · push_cast
      linarith
    · push_cast
      linarith
  refine ⟨?_, displayPercent_eq_toFixed2⟩
  rw [displayPercent_eq_toFixed2]
  simp only [toFixed2, hfl]
  decide

/-- C4 witness: the amended statement applied at `f = 1`. -/
theorem C4_displayPercent_near_one_witness :
    (1 - 1 / 10 ^ 7 ≤ (1 : ℚ)) ∧ ((1 : ℚ) ≤ 1)
    ∧ (displayPercent 1 = "100.00%"
      ∧ ∀ g : ℚ, displayPercent g = toFixed2 (g * 100) ++ "%") :=
  ⟨by norm_num, le_refl 1, C4_displayPercent_near_one 1 (by norm_num) (le_refl 1)⟩

/-- Helper: the `tpc` getter computes the spec's quotient formula, for every
combination of present categories. -/
theorem tpc_eq_tpcFromSpec (u : URI) (st : ICoveredCount) (br fn : Option ICoveredCount) :
    AbstractFileCoverage.tpc ⟨u, st, br, fn⟩ = tpcFromSpec ⟨u, st, br, fn⟩ := by
  rcases br with _ | b <;> rcases fn with _ | f <;>
    simp only [AbstractFileCoverage.tpc, tpcFromSpec, presentCovered, presentTotal,
      Nat.add_zero]

/-- Helper: under `covered ≤ total` in every present category, the covered sum
is at most the total sum. -/
theorem presentCovered_le_presentTotal (u : URI) (st : ICoveredCount)
    (br fn : Option ICoveredCount)
    (hs : st.covered ≤ st.total)
    (hb : ∀ b ∈ br, b.covered ≤ b.total)
    (hf : ∀ f ∈ fn, f.covered ≤ f.total) :
    presentCovered ⟨u, st, br, fn⟩ ≤ presentTotal ⟨u, st, br, fn⟩ := by
  rcases br with _ | b <;> rcases fn with _ | f <;>
    simp only [presentCovered, presentTotal]
  · omega
  · have h2 := hf f (Option.mem_some_iff.mpr rfl)
    omega
  · have h2 := hb b (Option.mem_some_iff.mpr rfl)
    omega
  · have h2 := hb b (Option.mem_some_iff.mpr rfl)
    have h3 := hf f (Option.mem_some_iff.mpr rfl)
    omega

/-- C5: `tpc` equals covered-sum over total-sum across the present categories,
with the zero-denominator case equal to 1; under `covered ≤ total` in every
present category it lies in `[0, 1]`, and all-zero totals give `tpc = 1`. -/
theorem C5_tpc_formula_and_bounds (c : AbstractFileCoverage)
    (hs : c.statement.covered ≤ c.statement.total)
    (hb : ∀ b ∈ c.branch, b.covered ≤ b.total)
    (hf : ∀ f ∈ c.function, f.covered ≤ f.total) :
    c.tpc = tpcFromSpec c
    ∧ 0 ≤ c.tpc ∧ c.tpc ≤ 1
    ∧ (presentTotal c = 0 → c.tpc = 1) := by
  obtain ⟨u, st, br, fn⟩ := c
  have heq := tpc_eq_tpcFromSpec u st br fn
  have hcov := presentCovered_le_presentTotal u st br fn hs hb hf
  refine ⟨heq, ?_, ?_, ?_⟩
  · rw [heq, tpcFromSpec]
    split
    · norm_num
    · positivity
  · rw [heq, tpcFromSpec]
    split
    · norm_num
    · rename_i h0
      have hD : (0 : ℚ) < presentTotal ⟨u, st, br, fn⟩ := by
        exact_mod_cast Nat.pos_of_ne_zero h0
      rw [div_le_one hD]
      exact_mod_cast hcov
  · intro h0
    rw [heq, tpcFromSpec, if_pos h0]

/-- C5 witness: the theorem applied to a node with statement count `{1, 2}`
and no optional categories. -/
theorem C5_tpc_witness :
    ((⟨⟨"file", "", "/x"⟩, ⟨1, 2⟩, none, none⟩ : AbstractFileCoverage).statement.covered
      ≤ (⟨⟨"file", "", "/x"⟩, ⟨1, 2⟩, none, none⟩ : AbstractFileCoverage).statement.total)
    ∧ ((⟨⟨"file", "", "/x"⟩, ⟨1, 2⟩, none, none⟩ : AbstractFileCoverage).tpc
        = tpcFromSpec ⟨⟨"file", "", "/x"⟩, ⟨1, 2⟩, none, none⟩
      ∧ 0 ≤ (⟨⟨"file", "", "/x"⟩, ⟨1, 2⟩, none, none⟩ : AbstractFileCoverage).tpc
      ∧ (⟨⟨"file", "", "/x"⟩, ⟨1, 2⟩, none, none⟩ : AbstractFileCoverage).tpc ≤ 1
      ∧ (presentTotal ⟨⟨"file", "", "/x"⟩, ⟨1, 2⟩, none, none⟩ = 0 →
          (⟨⟨"file", "", "/x"⟩, ⟨1, 2⟩, none, none⟩ : AbstractFileCoverage).tpc = 1)) :=
  ⟨by decide,
   C5_tpc_formula_and_bounds ⟨⟨"file", "", "/x"⟩, ⟨1, 2⟩, none, none⟩
     (by decide) (by simp) (by simp)⟩

/-- C9: Statement mode returns the statement percent, Total-coverage mode
returns `tpc`, Minimum mode returns the minimum of the present category
percents; on a node with statement percent 0.95 and branch percent 0.70 the
Minimum mode yields 0.70. -/
theorem C9_selector_modes (c : AbstractFileCoverage) :
    calculateDisplayedStat c .Statement = percent c.statement
    ∧ calculateDisplayedStat c .TotalCoverage = c.tpc
    ∧ calculateDisplayedStat c .Minimum = minimumFromSpec c
    ∧ calculateDisplayedStat ⟨⟨"file", "", "/x"⟩, ⟨95, 100⟩, some ⟨70, 100⟩, none⟩ .Minimum
      = 7 / 10 := by
  refine ⟨rfl, rfl, ?_, ?_⟩
  · rcases hcb : c.branch with _ | b <;> rcases hcf : c.function with _ | f <;>
      simp [calculateDisplayedStat, minimumFromSpec, hcb, hcf,
        min_assoc, min_comm, min_left_comm]
  · norm_num [calculateDisplayedStat, percent, min_def]

/-- C7: `getAllFiles` caching protocol. A cache miss starts and caches exactly
one construction attempt (one provider call); a second call arriving before
settlement awaits that same attempt with no further call; any state caching an
attempt reuses it unchanged (so two successful calls return the same tree);
every caller of a successful attempt receives its tree with the cache kept;
every caller of a failed attempt has the error re-raised and the cache
cleared, after which the next call re-invokes the provider from scratch. -/
theorem C7_getAllFiles_caching {E : Type}
    (provide : Nat → Except E (List IFileCoverage))
    (s : TestCoverageState) (h : s.fileCoverage = none) :
    startGetAllFiles s
      = (s.providerCalls, ⟨some s.providerCalls, s.providerCalls + 1⟩)
    ∧ startGetAllFiles ⟨some s.providerCalls, s.providerCalls + 1⟩
      = (s.providerCalls, ⟨some s.providerCalls, s.providerCalls + 1⟩)
    ∧ (∀ a s2, s2.fileCoverage = some a → startGetAllFiles s2 = (a, s2))
    ∧ (∀ a t s2, createFileCoverage provide a = .ok t →
        resumeGetAllFiles provide a s2 = (.ok t, s2))
    ∧ (∀ a e s2, createFileCoverage provide a = .error e →
        resumeGetAllFiles provide a s2 = (.error e, { s2 with fileCoverage := none })) := by
  refine ⟨?_, rfl, ?_, ?_, ?_⟩
  · simp [startGetAllFiles, h]
  · intro a s2 h2
    simp [startGetAllFiles, h2]
  · intro a t s2 hok
    simp [resumeGetAllFiles, hok]
  · intro a e s2 herr
    simp [resumeGetAllFiles, herr]

/-- C7 witness: the theorem applied to a fresh session and a provider that
always succeeds with an empty file list. -/
theorem C7_getAllFiles_caching_witness :
    (⟨none, 0⟩ : TestCoverageState).fileCoverage = none
    ∧ (startGetAllFiles ⟨none, 0⟩ = (0, ⟨some 0, 1⟩)
      ∧ startGetAllFiles ⟨some 0, 1⟩ = (0, ⟨some 0, 1⟩)
      ∧ (∀ a s2, s2.fileCoverage = some a → startGetAllFiles s2 = (a, s2))
      ∧ (∀ a t s2,
          createFileCoverage (fun _ => (Except.ok [] : Except Unit (List IFileCoverage))) a
            = .ok t →
          resumeGetAllFiles (fun _ => (Except.ok [] : Except Unit (List IFileCoverage))) a s2
            = (.ok t, s2))
      ∧ (∀ a e s2,
          createFileCoverage (fun _ => (Except.ok [] : Except Unit (List IFileCoverage))) a
            = .error e →
          resumeGetAllFiles (fun _ => (Except.ok [] : Except Unit (List IFileCoverage))) a s2
            = (.error e, { s2 with fileCoverage := none }))) :=
  ⟨rfl,
   C7_getAllFiles_caching (fun _ => (Except.ok [] : Except Unit (List IFileCoverage)))
     ⟨none, 0⟩ rfl⟩

/-- C8: `details()` caching on one leaf. The first call on an empty cache
invokes the resolver exactly once, caching the pending attempt; a concurrent
call before settlement awaits the same attempt with no second invocation; a
failed resolution propagates its error to the caller and clears the cache, so
the next call starts a fresh resolver attempt. -/
theorem C8_details_caching {E : Type}
    (resolve : Nat → Except E (List CoverageDetail))
    (l : LeafState) (h : l.cache = .empty) :
    startDetails l
      = (.attempt l.resolverCalls l.index,
         ⟨.pending l.resolverCalls, l.resolverCalls + 1, l.index⟩)
    ∧ startDetails ⟨.pending l.resolverCalls, l.resolverCalls + 1, l.index⟩
      = (.attempt l.resolverCalls l.index,
         ⟨.pending l.resolverCalls, l.resolverCalls + 1, l.index⟩)
    ∧ (∀ a i e l2, resolve a = .error e →
        resumeDetails resolve (.attempt a i) l2
          = (.error e, { l2 with cache := .empty }))
    ∧ (∀ l2 : LeafState, l2.cache = .empty →
        startDetails l2
          = (.attempt l2.resolverCalls l2.index,
             ⟨.pending l2.resolverCalls, l2.resolverCalls + 1, l2.index⟩)) := by
  refine ⟨?_, rfl, ?_, ?_⟩
  · simp [startDetails, h]
  · intro a i e l2 herr
    simp [resumeDetails, herr]
  · intro l2 h2
    simp [startDetails, h2]

/-- C8 witness: the theorem applied to a leaf with index 5, an empty cache,
and a resolver that always fails. -/
theorem C8_details_caching_witness :
    (⟨.empty, 0, 5⟩ : LeafState).cache = DetailsCache.empty
    ∧ (startDetails ⟨.empty, 0, 5⟩ = (.attempt 0 5, ⟨.pending 0, 1, 5⟩)
      ∧ startDetails ⟨.pending 0, 1, 5⟩ = (.attempt 0 5, ⟨.pending 0, 1, 5⟩)
      ∧ (∀ a i e l2,
          (fun _ => (Except.error () : Except Unit (List CoverageDetail))) a = .error e →
          resumeDetails (fun _ => (Except.error () : Except Unit (List CoverageDetail)))
            (.attempt a i) l2
            = (.error e, { l2 with cache := .empty }))
      ∧ (∀ l2 : LeafState, l2.cache = .empty →
          startDetails l2
            = (.attempt l2.resolverCalls l2.index,
               ⟨.pending l2.resolverCalls, l2.resolverCalls + 1, l2.index⟩))) :=
  ⟨rfl,
   C8_details_caching (fun _ => (Except.error () : Except Unit (List CoverageDetail)))
     ⟨.empty, 0, 5⟩ rfl⟩

/-- C10: a record carrying inline detail entries yields a Leaf whose
`details()` calls return those entries without ever invoking the resolver:
one call returns the inline array and leaves the state unchanged (the
resolver-invocation count stays 0), and any number of iterated calls keeps
the state fixed. -/
theorem C10_inline_details {E : Type}
    (resolve : Nat → Except E (List CoverageDetail))
    (coverage : IFileCoverage) (index : Nat)
    (ds : List CoverageDetail) (h : coverage.details = some ds) :
    detailsCall resolve (FileCoverage.make coverage index).initState
      = (.ok ds, (FileCoverage.make coverage index).initState)
    ∧ (FileCoverage.make coverage index).initState.resolverCalls = 0
    ∧ ∀ k : Nat,
        (fun l => (detailsCall resolve l).2)^[k]
            (FileCoverage.make coverage index).initState
          = (FileCoverage.make coverage index).initState := by
  have hst : (FileCoverage.make coverage index).initState
      = ⟨.inline ds, 0, index⟩ := by
    simp [FileCoverage.make, FileCoverage.initState, h]
  have hcall : detailsCall resolve (FileCoverage.make coverage index).initState
      = (.ok ds, (FileCoverage.make coverage index).initState) := by
    rw [hst]
    rfl
  refine ⟨hcall, by rw [hst], ?_⟩
  intro k
  have hfix : (fun l => (detailsCall resolve l).2)
      ((FileCoverage.make coverage index).initState)
      = (FileCoverage.make coverage index).initState := by
    show (detailsCall resolve ((FileCoverage.make coverage index).initState)).2
      = (FileCoverage.make coverage index).initState
    rw [hcall]
  exact Function.iterate_fixed hfix k

/-- C10 witness: the theorem applied to a record with inline details `[7]`,
index 3, and a resolver that always fails. -/
theorem C10_inline_details_witness :
    (⟨⟨"file", "", "/x"⟩, ⟨1, 2⟩, none, none, some [7]⟩ : IFileCoverage).details = some [7]
    ∧ (detailsCall (fun _ => (Except.error () : Except Unit (List CoverageDetail)))
        (FileCoverage.make ⟨⟨"file", "", "/x"⟩, ⟨1, 2⟩, none, none, some [7]⟩ 3).initState
        = (.ok [7],
           (FileCoverage.make ⟨⟨"file", "", "/x"⟩, ⟨1, 2⟩, none, none, some [7]⟩ 3).initState)
      ∧ (FileCoverage.make
          ⟨⟨"file", "", "/x"⟩, ⟨1, 2⟩, none, none, some [7]⟩ 3).initState.resolverCalls = 0
      ∧ ∀ k : Nat,
          (fun l =>
            (detailsCall (fun _ => (Except.error () : Except Unit (List CoverageDetail))) l).2)^[k]
              (FileCoverage.make ⟨⟨"file", "", "/x"⟩, ⟨1, 2⟩, none, none, some [7]⟩ 3).initState
            = (FileCoverage.make ⟨⟨"file", "", "/x"⟩, ⟨1, 2⟩, none, none, some [7]⟩ 3).initState) :=
  ⟨rfl,
   C10_inline_details (fun _ => (Except.error () : Except Unit (List CoverageDetail)))
     ⟨⟨"file", "", "/x"⟩, ⟨1, 2⟩, none, none, some [7]⟩ 3 [7] rfl⟩
